import Mathlib

/-!
Shallow embedding of the workout-dashboard data pipeline: the schema-driven
CSV parser (`modules/csv_parser.py`) and the exercise-to-muscle-group
classifier (`modules/data_enrichment.py`), together with theorems about the
behaviour of these functions.

Tables are modelled as ordered lists of named columns of cells; Python dicts
become insertion-ordered association lists (updates overwrite the value in
place, new keys are appended); pandas numeric parsing, `strptime` and the
current timestamp are supplied as an explicit record of external functions.
-/

/-- A single table cell: missing (NaN/None), a string, or a number. -/
inductive Cell where
  | null : Cell
  | str  : String → Cell
  | num  : Int → Cell
deriving DecidableEq, Repr

def Cell.isNull : Cell → Bool
  | Cell.null => true
  | _ => false

/-- Python str(x) on a cell value (str(NaN) renders as "nan"). -/
def cellPyStr : Cell → String
  | Cell.null => "nan"
  | Cell.str s => s
  | Cell.num n => toString n

/-- Python `s.lower()` (ASCII case folding), computed on the char list. -/
def pyLower (s : String) : String := String.mk (s.data.map Char.toLower)

/-- Does the second char list start the first one. -/
def startsWithChars : List Char → List Char → Bool
  | _, [] => true
  | [], _ :: _ => false
  | a :: as, b :: bs => a == b && startsWithChars as bs

/-- Substring containment on char lists. -/
def hasSubChars : List Char → List Char → Bool
  | [], needle => needle.isEmpty
  | hay@(_ :: rest), needle => startsWithChars hay needle || hasSubChars rest needle

/-- Python `needle in hay` substring containment. -/
def pyContains (hay needle : String) : Bool := hasSubChars hay.data needle.data

/-- Python `s.split()`: split on whitespace runs, discarding empty pieces
(the accumulator holds the current token reversed). -/
def splitWsAux : List Char → List Char → List String
  | [], acc => if acc.isEmpty then [] else [String.mk acc.reverse]
  | c :: rest, acc =>
    if c.isWhitespace then
      if acc.isEmpty then splitWsAux rest []
      else String.mk acc.reverse :: splitWsAux rest []
    else splitWsAux rest (c :: acc)

/-- Insertion-ordered association list lookup (Python dict read). -/
def lookupA {κ α : Type} [DecidableEq κ] : List (κ × α) → κ → Option α
  | [], _ => none
  | p :: ps, k => if p.1 = k then some p.2 else lookupA ps k

/-- Does the association list hold the key (Python `k in d`). -/
def hasKey {κ α : Type} [DecidableEq κ] : List (κ × α) → κ → Bool
  | [], _ => false
  | p :: ps, k => if p.1 = k then true else hasKey ps k

/-- Python dict write `d[k] = v`: overwrite in place, else append. -/
def setA {κ α : Type} [DecidableEq κ] (m : List (κ × α)) (k : κ) (v : α) :
    List (κ × α) :=
  if hasKey m k then m.map (fun p => if p.1 = k then (k, v) else p)
  else m ++ [(k, v)]

theorem lookupA_eq_none_of_hasKey_false {κ α : Type} [DecidableEq κ]
    (m : List (κ × α)) (k : κ) (h : hasKey m k = false) : lookupA m k = none := by
  induction m with
  | nil => rfl
  | cons p ps ih =>
    simp only [hasKey] at h
    simp only [lookupA]
    by_cases hpk : p.1 = k
    · simp [hpk] at h
    · simp only [hpk, if_false]
      exact ih (by simpa [hpk] using h)

theorem lookupA_append {κ α : Type} [DecidableEq κ]
    (m₁ m₂ : List (κ × α)) (k : κ) :
    lookupA (m₁ ++ m₂) k =
      (match lookupA m₁ k with
       | some v => some v
       | none => lookupA m₂ k) := by
  induction m₁ with
  | nil => rfl
  | cons p ps ih =>
    by_cases hpk : p.1 = k
    · simp [lookupA, hpk]
    · simp [lookupA, hpk, ih]


theorem lookupA_mapUpd_self {κ α : Type} [DecidableEq κ]
    (m : List (κ × α)) (k : κ) (v : α) (h : hasKey m k = true) :
    lookupA (m.map (fun p => if p.1 = k then (k, v) else p)) k = some v := by
  induction m with
  | nil => simp [hasKey] at h
  | cons p ps ih =>
    by_cases hpk : p.1 = k
    · simp [lookupA, hpk]
    · simp only [hasKey, hpk, if_false] at h
      simp [lookupA, hpk, ih h]

theorem lookupA_mapUpd_ne {κ α : Type} [DecidableEq κ]
    (m : List (κ × α)) (k k' : κ) (v : α) (hne : k' ≠ k) :
    lookupA (m.map (fun p => if p.1 = k then (k, v) else p)) k' = lookupA m k' := by
  induction m with
  | nil => rfl
  | cons p ps ih =>
    by_cases hpk : p.1 = k
    · have hkk : ¬ (k = k') := fun hh => hne hh.symm
      simp [lookupA, hpk, hkk, ih]
    · simp only [List.map_cons, hpk, if_false]
      simp only [lookupA]
      by_cases hpk' : p.1 = k'
      · simp [hpk']
      · simp [hpk', ih]

theorem hasKey_mapUpd_ne {κ α : Type} [DecidableEq κ]
    (m : List (κ × α)) (k k' : κ) (v : α) (hne : k' ≠ k) :
    hasKey (m.map (fun p => if p.1 = k then (k, v) else p)) k' = hasKey m k' := by
  induction m with
  | nil => rfl
  | cons p ps ih =>
    by_cases hpk : p.1 = k
    · have hkk : ¬ (k = k') := fun hh => hne hh.symm
      simp [hasKey, hpk, hkk, ih]
    · simp only [List.map_cons, hpk, if_false]
      simp only [hasKey]
      by_cases hpk' : p.1 = k'
      · simp [hpk']
      · simp [hpk', ih]

theorem hasKey_append {κ α : Type} [DecidableEq κ]
    (m₁ m₂ : List (κ × α)) (k : κ) :
    hasKey (m₁ ++ m₂) k = (hasKey m₁ k || hasKey m₂ k) := by
  induction m₁ with
  | nil => simp [hasKey]
  | cons p ps ih =>
    by_cases hpk : p.1 = k
    · simp [hasKey, hpk]
    · simp [hasKey, hpk, ih]

theorem lookupA_setA_self {κ α : Type} [DecidableEq κ]
    (m : List (κ × α)) (k : κ) (v : α) : lookupA (setA m k v) k = some v := by
  unfold setA
  by_cases h : hasKey m k = true
  · simp only [h, if_true]
    exact lookupA_mapUpd_self m k v h
  · simp only [Bool.not_eq_true] at h
    simp only [h, Bool.false_eq_true, if_false]
    rw [lookupA_append, lookupA_eq_none_of_hasKey_false m k h]
    simp [lookupA]

theorem lookupA_setA_ne {κ α : Type} [DecidableEq κ]
    (m : List (κ × α)) (k k' : κ) (v : α) (hne : k' ≠ k) :
    lookupA (setA m k v) k' = lookupA m k' := by
  unfold setA
  by_cases h : hasKey m k = true
  · simp only [h, if_true]
    exact lookupA_mapUpd_ne m k k' v hne
  · simp only [Bool.not_eq_true] at h
    simp only [h, Bool.false_eq_true, if_false]
    rw [lookupA_append]
    have hkk : ¬ (k = k') := fun hh => hne hh.symm
    simp only [lookupA, hkk, if_false]
    cases lookupA m k' <;> simp

theorem hasKey_setA_self {κ α : Type} [DecidableEq κ]
    (m : List (κ × α)) (k : κ) (v : α) : hasKey (setA m k v) k = true := by
  unfold setA
  by_cases h : hasKey m k = true
  · simp only [h, if_true]
    induction m with
    | nil => simp [hasKey] at h
    | cons p ps ih =>
      by_cases hpk : p.1 = k
      · simp [hasKey, hpk]
      · simp only [hasKey, hpk, if_false] at h
        simp [hasKey, hpk, ih h]
  · simp only [Bool.not_eq_true] at h
    simp only [h, Bool.false_eq_true, if_false]
    rw [hasKey_append]
    simp [hasKey]

theorem hasKey_setA_ne {κ α : Type} [DecidableEq κ]
    (m : List (κ × α)) (k k' : κ) (v : α) (hne : k' ≠ k) :
    hasKey (setA m k v) k' = hasKey m k' := by
  unfold setA
  by_cases h : hasKey m k = true
  · simp only [h, if_true]
    exact hasKey_mapUpd_ne m k k' v hne
  · simp only [Bool.not_eq_true] at h
    simp only [h, Bool.false_eq_true, if_false]
    rw [hasKey_append]
    have hkk : ¬ (k = k') := fun hh => hne hh.symm
    simp [hasKey, hkk]

/-- A pandas DataFrame: an ordered list of named columns of cells. -/
structure DF where
  cols : List (String × List Cell)
deriving DecidableEq, Repr

def DF.hasCol (df : DF) (name : String) : Bool := hasKey df.cols name

def DF.getCol (df : DF) (name : String) : Option (List Cell) := lookupA df.cols name

/-- Column read after a presence check (`df[name]`). -/
def DF.getColD (df : DF) (name : String) : List Cell := (lookupA df.cols name).getD []

/-- `df[name] = cells`: overwrite the column in place, else append it. -/
def DF.setCol (df : DF) (name : String) (cells : List Cell) : DF :=
  ⟨setA df.cols name cells⟩

/-- Row count of a (rectangular) DataFrame. -/
def DF.nRows (df : DF) : Nat :=
  match df.cols with
  | [] => 0
  | c :: _ => c.2.length

/-- pandas `df.empty`: some axis has length zero. -/
def DF.isEmptyDF (df : DF) : Bool :=
  match df.cols with
  | [] => true
  | c :: _ => c.2.isEmpty

/-- External functions the parser delegates to pandas / the clock:
numeric parsing for `pd.to_numeric`, format-directed datetime parsing for
`pd.to_datetime(format=...)`, automatic datetime parsing, and the current
timestamp `pd.Timestamp.now()`. -/
structure Pandas where
  toNumeric : String → Option Int
  strptime : String → String → Option Int
  autoDate : String → Option Int
  now : Int

/-- Per-column schema configuration (`required_columns` / `optional_columns`
entries): optional alias list, declared type, datetime formats, `validation`
min/max bounds and the optional-column default value (`Cell.null` models an
absent or null `default`). -/
structure ColumnConfig where
  aliases : Option (List String) := none
  ctype : Option String := none
  formats : Option (List String) := none
  vmin : Option Int := none
  vmax : Option Int := none
  dflt : Cell := Cell.null
deriving DecidableEq, Repr

/-- The CSV schema configuration dictionary. -/
structure Schema where
  required_columns : List (String × ColumnConfig)
  optional_columns : List (String × ColumnConfig) := []
  strict_mode : Bool := false
  case_sensitive : Bool := false
deriving DecidableEq, Repr

/-- Accumulator state of one parse run (`self.errors`, `self.warnings`,
`self.column_mappings`). -/
structure PState where
  errors : List String := []
  warnings : List String := []
  column_mappings : List (String × String) := []
deriving DecidableEq, Repr

/-- Case normalization used in alias comparison (`col.lower()` unless
`case_sensitive`). -/
def normCase (caseSensitive : Bool) (s : String) : String :=
  if caseSensitive then s else pyLower s

/-- `config.get('aliases', [std_name])`. -/
def aliasesOf (stdName : String) (cfg : ColumnConfig) : List String :=
  cfg.aliases.getD [stdName]

/-- The header (first in header order) that matches some alias of the
canonical column, as scanned by the loops of `_map_columns`. -/
def findMatchFor (cs : Bool) (headers : List String) (stdName : String)
    (cfg : ColumnConfig) : Option String :=
  headers.find? (fun col =>
    (aliasesOf stdName cfg).any (fun a => normCase cs col == normCase cs a))

/-- Both passes of `_map_columns` over the declared columns (required ones
first, then optional ones), building `mapped_columns` (header → canonical)
and `self.column_mappings` (canonical → header) by dict assignment. -/
def mapColumnsLoop (cs : Bool) (headers : List String) :
    List (String × ColumnConfig) →
    List (String × String) × List (String × String) →
    List (String × String) × List (String × String)
  | [], acc => acc
  | p :: rest, acc =>
    match findMatchFor cs headers p.1 p.2 with
    | some col =>
      mapColumnsLoop cs headers rest (setA acc.1 col p.1, setA acc.2 p.1 col)
    | none => mapColumnsLoop cs headers rest acc

def mapColumnsAux (cs : Bool) (headers : List String)
    (decl : List (String × ColumnConfig)) :
    List (String × String) × List (String × String) :=
  mapColumnsLoop cs headers decl ([], [])

/-- `_map_columns`: rename matched headers to canonical names and return the
recorded canonical-to-header mappings. -/
def map_columns (schema : Schema) (df : DF) : DF × List (String × String) :=
  let headers := df.cols.map (fun c => c.1)
  let m := mapColumnsAux schema.case_sensitive headers
    (schema.required_columns ++ schema.optional_columns)
  (⟨df.cols.map (fun c =>
      match lookupA m.1 c.1 with
      | some stdName => (stdName, c.2)
      | none => c)⟩,
   m.2)

/-- `_validate_required_columns`: one joint error naming all missing
required columns. -/
def validate_required_columns (schema : Schema) (df : DF) : List String :=
  let missing := (schema.required_columns.map (fun p => p.1)).filter
    (fun c => !df.hasCol c)
  if missing.isEmpty then []
  else ["Missing required columns: " ++ String.intercalate ", " missing]

/-- Warning text of `_add_optional_columns`. -/
def addedColumnWarning (name : String) (d : Cell) : String :=
  "Added column \x27" ++ name ++ "\x27 with default value: " ++ cellPyStr d

/-- The loop of `_add_optional_columns` over the declared optional columns:
insert each absent one as a column of its default value, warning when the
default is not null. -/
def addOptionalAux : List (String × ColumnConfig) → DF → DF × List String
  | [], df => (df, [])
  | p :: rest, df =>
    if df.hasCol p.1 then addOptionalAux rest df
    else
      let df2 := df.setCol p.1 (List.replicate df.nRows p.2.dflt)
      let r := addOptionalAux rest df2
      (r.1, (if p.2.dflt ≠ Cell.null then [addedColumnWarning p.1 p.2.dflt] else []) ++ r.2)

/-- `_add_optional_columns`. -/
def add_optional_columns (schema : Schema) (df : DF) : DF × List String :=
  addOptionalAux schema.optional_columns df

/-- `pd.to_numeric(x, errors='coerce')` on one cell. -/
def coerceNumeric (P : Pandas) : Cell → Cell
  | Cell.null => Cell.null
  | Cell.num n => Cell.num n
  | Cell.str s =>
    match P.toNumeric s with
    | some n => Cell.num n
    | none => Cell.null

/-- `pd.to_datetime(x, format=fmt, errors='coerce')` on one cell. -/
def toDatetimeFmt (P : Pandas) (fmt : String) : Cell → Cell
  | Cell.str s =>
    match P.strptime fmt s with
    | some t => Cell.num t
    | none => Cell.null
  | _ => Cell.null

/-- Automatic fallback `pd.to_datetime(x, errors='coerce')` on one cell. -/
def autoDatetime (P : Pandas) : Cell → Cell
  | Cell.str s =>
    match P.autoDate s with
    | some t => Cell.num t
    | none => Cell.null
  | _ => Cell.null

/-- `_parse_datetime`: try each configured format in order, adopting the
first that parses at least one value; otherwise fall back to the automatic
parse. -/
def parse_datetime (P : Pandas) (cfg : ColumnConfig) (cells : List Cell) :
    List Cell :=
  let formats := cfg.formats.getD ["%Y-%m-%d %H:%M:%S"]
  match formats.find? (fun fmt =>
      (cells.map (toDatetimeFmt P fmt)).any (fun c => !c.isNull)) with
  | some fmt => cells.map (toDatetimeFmt P fmt)
  | none => cells.map (autoDatetime P)

/-- Error text for unconvertible numeric cells. -/
def unconvertibleMsg (name : String) (n : Nat) (tyName : String) : String :=
  "Column \x27" ++ name ++ "\x27: " ++ toString n ++
    " values could not be converted to " ++ tyName

/-- The per-column body of `_validate_data_types`: branch on the declared
type, convert the cells, and report the count of nulls remaining after a
numeric coercion. -/
def validateTypesCol (P : Pandas) (name : String) (cfg : ColumnConfig)
    (cells : List Cell) : List Cell × List String :=
  match cfg.ctype with
  | some "datetime" => (parse_datetime P cfg cells, [])
  | some "integer" =>
    let converted := cells.map (coerceNumeric P)
    let nullCount := (converted.filter (fun c => c.isNull)).length
    (converted,
     if nullCount ≠ 0 then [unconvertibleMsg name nullCount "integer"] else [])
  | some "float" =>
    let converted := cells.map (coerceNumeric P)
    let nullCount := (converted.filter (fun c => c.isNull)).length
    (converted,
     if nullCount ≠ 0 then [unconvertibleMsg name nullCount "float"] else [])
  | some "string" =>
    (cells.map (fun c =>
       let s := cellPyStr c
       Cell.str (if s = "nan" then "" else s)), [])
  | _ => (cells, [])

/-- Python `{**a, **b}`: keys of `a` in order (values from `b` on
collision), then the new keys of `b`. -/
def mergeDicts (a b : List (String × ColumnConfig)) :
    List (String × ColumnConfig) :=
  a.map (fun p => (p.1, (lookupA b p.1).getD p.2)) ++
    b.filter (fun p => !hasKey a p.1)

/-- `_validate_data_types` over all declared columns present in the table. -/
def validate_data_types (P : Pandas) (schema : Schema) (df : DF) :
    DF × List String :=
  (mergeDicts schema.required_columns schema.optional_columns).foldl
    (fun acc p =>
      match acc.1.getCol p.1 with
      | none => acc
      | some cells =>
        let r := validateTypesCol P p.1 p.2 cells
        (acc.1.setCol p.1 r.1, acc.2 ++ r.2))
    (df, [])

/-- `value < bound` on a cell, as pandas evaluates it on a numeric column
(comparisons against null are false). -/
def cellLt (c : Cell) (bound : Int) : Bool :=
  match c with
  | Cell.num n => n < bound
  | _ => false

/-- `value > bound` on a cell (comparisons against null are false). -/
def cellGt (c : Cell) (bound : Int) : Bool :=
  match c with
  | Cell.num n => bound < n
  | _ => false

def belowMinMsg (name : String) (bound : Int) (n : Nat) : String :=
  "Column \x27" ++ name ++ "\x27: " ++ toString n ++
    " values below minimum " ++ toString bound

def aboveMaxMsg (name : String) (bound : Int) (n : Nat) : String :=
  "Column \x27" ++ name ++ "\x27: " ++ toString n ++
    " values above maximum " ++ toString bound

def nullRequiredMsg (name : String) (n : Nat) : String :=
  "Column \x27" ++ name ++ "\x27: " ++ toString n ++
    " null values found (required field)"

/-- The per-column body of `_validate_constraints`: the min bound check, the
max bound check, and the required-column null check, in source order. -/
def validateConstraintsCol (isRequired : Bool) (name : String)
    (cfg : ColumnConfig) (cells : List Cell) : List String :=
  let errs : List String := []
  let errs :=
    match cfg.vmin with
    | some m =>
      let belowMin := cells.filter (fun c => cellLt c m)
      if belowMin.length ≠ 0 then errs ++ [belowMinMsg name m belowMin.length]
      else errs
    | none => errs
  let errs :=
    match cfg.vmax with
    | some m =>
      let aboveMax := cells.filter (fun c => cellGt c m)
      if aboveMax.length ≠ 0 then errs ++ [aboveMaxMsg name m aboveMax.length]
      else errs
    | none => errs
  if isRequired then
    let nullCount := (cells.filter (fun c => c.isNull)).length
    if nullCount ≠ 0 then errs ++ [nullRequiredMsg name nullCount] else errs
  else errs

/-- `_validate_constraints`: per-column bound and null checks accumulate
errors; a trailing future-date check on the `datetime` column accumulates a
warning. -/
def validate_constraints (now : Int) (schema : Schema) (df : DF) :
    List String × List String :=
  let errs := (mergeDicts schema.required_columns schema.optional_columns).foldl
    (fun acc p =>
      match df.getCol p.1 with
      | none => acc
      | some cells =>
        acc ++ validateConstraintsCol (hasKey schema.required_columns p.1)
          p.1 p.2 cells)
    []
  let warns :=
    match df.getCol "datetime" with
    | some cells =>
      let future := cells.filter (fun c => cellGt c now)
      if future.length ≠ 0 then
        ["Found " ++ toString future.length ++ " entries with future dates"]
      else []
    | none => []
  (errs, warns)

/-- The validation pipeline of `parse_csv` between the emptiness check and
the strict-mode gate, with the accumulated run state. -/
def parseCore (P : Pandas) (schema : Schema) (df : DF) : DF × PState :=
  let r1 := map_columns schema df
  let errs1 := validate_required_columns schema r1.1
  let r2 := add_optional_columns schema r1.1
  let r3 := validate_data_types P schema r2.1
  let r4 := validate_constraints P.now schema r3.1
  (r3.1,
   { errors := errs1 ++ r3.2 ++ r4.1,
     warnings := r2.2 ++ r4.2,
     column_mappings := r1.2 })

/-- `parse_csv`: reset the per-run accumulators, fail on an empty table,
run the pipeline, and apply the strict-mode gate. The prior instance state
is taken as an argument and discarded by the reset. -/
def parse_csv (P : Pandas) (schema : Schema) (df : DF) (_prevState : PState) :
    Except String DF × PState :=
  let st0 : PState := {}
  if df.isEmptyDF then (Except.error "CSV file is empty", st0)
  else
    let r := parseCore P schema df
    if schema.strict_mode && !r.2.errors.isEmpty then
      (Except.error ("Validation failed: " ++ String.intercalate "; " r.2.errors),
       r.2)
    else (Except.ok r.1, r.2)

/-- One explicit exercise group of the mapping configuration. -/
structure ExerciseDef where
  names : List String := []
  level1 : String
  level2 : String
deriving DecidableEq, Repr

/-- One fuzzy keyword rule of the mapping configuration. -/
structure FuzzyRule where
  keyword : String
  level1 : String
  level2 : String
  exclude : List String := []
deriving DecidableEq, Repr

/-- The exercise mapping configuration (`default_mapping` flattened into its
two optional fields). -/
structure MappingConfig where
  exercises : List ExerciseDef := []
  fuzzy_rules : List FuzzyRule := []
  default_level1 : Option String := none
  default_level2 : Option String := none
deriving DecidableEq, Repr

/-- Per-run accumulators of the enrichment instance: the unmapped-name list
and the raw-name memo cache. -/
structure EState where
  unmapped_exercises : List Cell := []
  exercise_cache : List (Cell × (String × String)) := []
deriving DecidableEq, Repr

/-- `_normalize_name`: lowercase, trim, collapse whitespace runs to single
spaces (`' '.join(name.lower().strip().split())`). -/
def normalize_name (s : String) : String :=
  String.intercalate " " (splitWsAux (pyLower s).data [])

/-- `_build_exercise_lookup`: normalized alias → (level1, level2), built by
dict assignment so a later-declared group overwrites a colliding alias. -/
def build_exercise_lookup (config : MappingConfig) :
    List (String × (String × String)) :=
  config.exercises.foldl
    (fun m e =>
      e.names.foldl (fun m nm => setA m (normalize_name nm) (e.level1, e.level2)) m)
    []

/-- `_exact_match`. -/
def exact_match (config : MappingConfig) (normalizedName : String) :
    Option (String × String) :=
  lookupA (build_exercise_lookup config) normalizedName

/-- The rule loop of `_fuzzy_match`: first rule whose lowered keyword occurs
in the name and none of whose lowered exclusion terms do. -/
def fuzzyMatchRules : List FuzzyRule → String → Option (String × String)
  | [], _ => none
  | r :: rest, nm =>
    if pyContains nm (pyLower r.keyword) then
      if r.exclude.any (fun t => pyContains nm (pyLower t)) then
        fuzzyMatchRules rest nm
      else some (r.level1, r.level2)
    else fuzzyMatchRules rest nm

/-- `_fuzzy_match`. -/
def fuzzy_match (config : MappingConfig) (normalizedName : String) :
    Option (String × String) :=
  fuzzyMatchRules config.fuzzy_rules normalizedName

/-- `_apply_default_mapping`. -/
def apply_default_mapping (config : MappingConfig) : String × String :=
  (config.default_level1.getD "upper", config.default_level2.getD "unknown")

/-- `_map_exercise_to_muscles`: blank guard, memo cache, exact tier, fuzzy
tier, then the default tier which also records the raw name as unmapped. -/
def map_exercise_to_muscles (config : MappingConfig) (st : EState)
    (c : Cell) : (String × String) × EState :=
  if c.isNull || c == Cell.str "" then (("unknown", "unknown"), st)
  else
    match lookupA st.exercise_cache c with
    | some r => (r, st)
    | none =>
      let normalized := normalize_name (cellPyStr c)
      match exact_match config normalized with
      | some r => (r, { st with exercise_cache := setA st.exercise_cache c r })
      | none =>
        match fuzzy_match config normalized with
        | some r => (r, { st with exercise_cache := setA st.exercise_cache c r })
        | none =>
          let r := apply_default_mapping config
          (r, { unmapped_exercises := st.unmapped_exercises ++ [c],
                exercise_cache := setA st.exercise_cache c r })

/-- `Series.apply` of the stateful per-name resolution, in row order. -/
def mapAccumMuscles (config : MappingConfig) :
    EState → List Cell → List (String × String) × EState
  | st, [] => ([], st)
  | st, c :: cs =>
    let r := map_exercise_to_muscles config st c
    let rest := mapAccumMuscles config r.2 cs
    (r.1 :: rest.1, rest.2)

/-- `enrich_dataframe`: reset the unmapped list (the cache persists), fail
when `exercise_name` is absent, then write the two muscle-group columns. -/
def enrich_dataframe (config : MappingConfig) (df : DF) (st : EState) :
    Except String (DF × EState) :=
  let st := { st with unmapped_exercises := [] }
  if !df.hasCol "exercise_name" then
    Except.error "DataFrame must have \x27exercise_name\x27 column"
  else
    let r := mapAccumMuscles config st (df.getColD "exercise_name")
    let df := df.setCol "muscle_group_level1" (r.1.map (fun p => Cell.str p.1))
    let df := df.setCol "muscle_group_level2" (r.1.map (fun p => Cell.str p.2))
    Except.ok (df, r.2)

/-- The tiered classification as a pure function of the raw name and the
static configuration (the value `_map_exercise_to_muscles` computes and
caches). -/
def classify (config : MappingConfig) (c : Cell) : String × String :=
  if c.isNull || c == Cell.str "" then ("unknown", "unknown")
  else
    let normalized := normalize_name (cellPyStr c)
    match exact_match config normalized with
    | some r => r
    | none =>
      match fuzzy_match config normalized with
      | some r => r
      | none => apply_default_mapping config

/-- A cache is faithful when every memoized entry holds exactly the value
the tiered classification computes for its key. -/
def faithfulCache (config : MappingConfig) (st : EState) : Prop :=
  ∀ k v, lookupA st.exercise_cache k = some v → v = classify config k

theorem map_exercise_eq_classify (config : MappingConfig) (st : EState)
    (c : Cell) (hf : faithfulCache config st) :
    (map_exercise_to_muscles config st c).1 = classify config c ∧
    faithfulCache config (map_exercise_to_muscles config st c).2 := by
  unfold map_exercise_to_muscles
  by_cases hg : (c.isNull || c == Cell.str "") = true
  · simp only [hg, if_true]
    exact ⟨by simp [classify, hg], hf⟩
  · rw [Bool.not_eq_true] at hg
    simp only [hg, Bool.false_eq_true, if_false]
    cases hc : lookupA st.exercise_cache c with
    | some r => exact ⟨hf c r hc, hf⟩
    | none =>
      cases hex : exact_match config (normalize_name (cellPyStr c)) with
      | some r =>
        simp only []
        constructor
        · simp [classify, hg, hex]
        · intro k v hkv
          by_cases hkc : k = c
          · subst hkc
            rw [lookupA_setA_self] at hkv
            cases hkv
            simp [classify, hg, hex]
          · rw [lookupA_setA_ne _ _ _ _ hkc] at hkv
            exact hf k v hkv
      | none =>
        cases hfz : fuzzy_match config (normalize_name (cellPyStr c)) with
        | some r =>
          constructor
          · simp [classify, hg, hex, hfz]
          · intro k v hkv
            by_cases hkc : k = c
            · subst hkc
              rw [lookupA_setA_self] at hkv
              cases hkv
              simp [classify, hg, hex, hfz]
            · rw [lookupA_setA_ne _ _ _ _ hkc] at hkv
              exact hf k v hkv
        | none =>
          constructor
          · simp [classify, hg, hex, hfz]
          · intro k v hkv
            by_cases hkc : k = c
            · subst hkc
              rw [lookupA_setA_self] at hkv
              cases hkv
              simp [classify, hg, hex, hfz]
            · rw [lookupA_setA_ne _ _ _ _ hkc] at hkv
              exact hf k v hkv

theorem mapAccum_eq_classify (config : MappingConfig) :
    ∀ (cs : List Cell) (st : EState), faithfulCache config st →
    (mapAccumMuscles config st cs).1 = cs.map (classify config) ∧
    faithfulCache config (mapAccumMuscles config st cs).2 := by
  intro cs
  induction cs with
  | nil => intro st hf; exact ⟨rfl, hf⟩
  | cons c rest ih =>
    intro st hf
    have h1 := map_exercise_eq_classify config st c hf
    have h2 := ih (map_exercise_to_muscles config st c).2 h1.2
    simp only [mapAccumMuscles, List.map_cons]
    exact ⟨by rw [h1.1, h2.1], h2.2⟩

theorem enrich_ok_spec (config : MappingConfig) (df : DF) (st : EState)
    (hcol : df.hasCol "exercise_name" = true)
    (hf : faithfulCache config st) :
    enrich_dataframe config df st = Except.ok
      ((df.setCol "muscle_group_level1"
          ((df.getColD "exercise_name").map
            (fun c => Cell.str (classify config c).1))).setCol
        "muscle_group_level2"
          ((df.getColD "exercise_name").map
            (fun c => Cell.str (classify config c).2)),
       (mapAccumMuscles config { st with unmapped_exercises := [] }
          (df.getColD "exercise_name")).2) ∧
    faithfulCache config
      (mapAccumMuscles config { st with unmapped_exercises := [] }
        (df.getColD "exercise_name")).2 := by
  have hf0 : faithfulCache config { st with unmapped_exercises := ([] : List Cell) } := hf
  have hm := mapAccum_eq_classify config (df.getColD "exercise_name")
    { st with unmapped_exercises := [] } hf0
  constructor
  · unfold enrich_dataframe
    simp only [hcol, Bool.not_true, Bool.false_eq_true, if_false]
    rw [hm.1]
    simp only [List.map_map]
    rfl
  · exact hm.2

theorem enrich_error_of_no_col (config : MappingConfig) (df : DF) (st : EState)
    (hcol : df.hasCol "exercise_name" = false) :
    enrich_dataframe config df st =
      Except.error "DataFrame must have \x27exercise_name\x27 column" := by
  unfold enrich_dataframe
  simp [hcol]

theorem DF.getCol_setCol_self (df : DF) (n : String) (v : List Cell) :
    (df.setCol n v).getCol n = some v :=
  lookupA_setA_self df.cols n v

theorem DF.getCol_setCol_ne (df : DF) (n m : String) (v : List Cell)
    (h : m ≠ n) : (df.setCol n v).getCol m = df.getCol m :=
  lookupA_setA_ne df.cols n m v h

theorem DF.getColD_setCol_ne (df : DF) (n m : String) (v : List Cell)
    (h : m ≠ n) : (df.setCol n v).getColD m = df.getColD m := by
  unfold DF.getColD DF.setCol
  rw [lookupA_setA_ne df.cols n m v h]

theorem DF.hasCol_setCol_ne (df : DF) (n m : String) (v : List Cell)
    (h : m ≠ n) : (df.setCol n v).hasCol m = df.hasCol m :=
  hasKey_setA_ne df.cols n m v h

theorem DF.setCol_new (df : DF) (n : String) (v : List Cell)
    (h : df.hasCol n = false) : (df.setCol n v).cols = df.cols ++ [(n, v)] := by
  unfold DF.setCol setA
  unfold DF.hasCol at h
  simp [h]

/-- Claim C9: for every table accepted by enrich (starting from a faithful
memo cache, as the constructor establishes), applying enrich a second time
to its own output yields identical muscle_group_level1 and
muscle_group_level2 values in every row as the first application. -/
theorem c9_enrich_round_trip (config : MappingConfig) (df : DF) (st : EState)
    (hf : faithfulCache config st) (df₁ : DF) (st₁ : EState)
    (h1 : enrich_dataframe config df st = Except.ok (df₁, st₁)) :
    ∃ df₂ st₂, enrich_dataframe config df₁ st₁ = Except.ok (df₂, st₂) ∧
      df₂.getCol "muscle_group_level1" = df₁.getCol "muscle_group_level1" ∧
      df₂.getCol "muscle_group_level2" = df₁.getCol "muscle_group_level2" := by
  by_cases hcol : df.hasCol "exercise_name" = true
  · have spec := enrich_ok_spec config df st hcol hf
    rw [spec.1] at h1
    have hdf : df₁ =
        (df.setCol "muscle_group_level1"
          ((df.getColD "exercise_name").map
            (fun c => Cell.str (classify config c).1))).setCol
          "muscle_group_level2"
          ((df.getColD "exercise_name").map
            (fun c => Cell.str (classify config c).2)) := by
      cases h1; rfl
    have hst : st₁ =
        (mapAccumMuscles config { st with unmapped_exercises := [] }
          (df.getColD "exercise_name")).2 := by
      cases h1; rfl
    have hf1 : faithfulCache config st₁ := by rw [hst]; exact spec.2
    have hne1 : ("exercise_name" : String) ≠ "muscle_group_level1" := by decide
    have hne2 : ("exercise_name" : String) ≠ "muscle_group_level2" := by decide
    have hne3 : ("muscle_group_level1" : String) ≠ "muscle_group_level2" := by decide
    have hcol1 : df₁.hasCol "exercise_name" = true := by
      rw [hdf, DF.hasCol_setCol_ne _ _ _ _ hne2, DF.hasCol_setCol_ne _ _ _ _ hne1]
      exact hcol
    have hnames : df₁.getColD "exercise_name" = df.getColD "exercise_name" := by
      rw [hdf, DF.getColD_setCol_ne _ _ _ _ hne2, DF.getColD_setCol_ne _ _ _ _ hne1]
    have spec2 := enrich_ok_spec config df₁ st₁ hcol1 hf1
    rw [hnames] at spec2
    refine ⟨_, _, spec2.1, ?_, ?_⟩
    · rw [DF.getCol_setCol_ne _ _ _ _ hne3, DF.getCol_setCol_self]
      rw [hdf, DF.getCol_setCol_ne _ _ _ _ hne3, DF.getCol_setCol_self]
    · rw [DF.getCol_setCol_self, hdf, DF.getCol_setCol_self]
  · rw [Bool.not_eq_true] at hcol
    rw [enrich_error_of_no_col config df st hcol] at h1
    cases h1

def c9Config : MappingConfig := {}

def c9Df : DF := ⟨[("exercise_name", [Cell.str "squat"])]⟩

def c9Df1 : DF :=
  ⟨[("exercise_name", [Cell.str "squat"]),
    ("muscle_group_level1", [Cell.str "upper"]),
    ("muscle_group_level2", [Cell.str "unknown"])]⟩

def c9St1 : EState :=
  { unmapped_exercises := [Cell.str "squat"],
    exercise_cache := [(Cell.str "squat", ("upper", "unknown"))] }

/-- Witness for C9 at a concrete table, configuration and fresh state. -/
theorem c9_enrich_round_trip_witness :
    ∃ df₂ st₂, enrich_dataframe c9Config c9Df1 c9St1 = Except.ok (df₂, st₂) ∧
      df₂.getCol "muscle_group_level1" = c9Df1.getCol "muscle_group_level1" ∧
      df₂.getCol "muscle_group_level2" = c9Df1.getCol "muscle_group_level2" :=
  c9_enrich_round_trip c9Config c9Df {} (fun k v h => by simp [lookupA] at h)
    c9Df1 c9St1 (by rfl)

/-- Claim C10: for every input table containing an exercise_name column
(and not already carrying the two muscle-group columns), enrich appends
exactly the columns muscle_group_level1 and muscle_group_level2 at the end
and leaves every other column unchanged in place. -/
theorem c10_enrich_frame (config : MappingConfig) (df : DF) (st : EState)
    (hcol : df.hasCol "exercise_name" = true)
    (h1 : df.hasCol "muscle_group_level1" = false)
    (h2 : df.hasCol "muscle_group_level2" = false) :
    ∃ v1 v2 st',
      enrich_dataframe config df st = Except.ok
        (⟨df.cols ++ [("muscle_group_level1", v1), ("muscle_group_level2", v2)]⟩,
         st') ∧
      ∀ n, n ≠ "muscle_group_level1" → n ≠ "muscle_group_level2" →
        lookupA (df.cols ++ [("muscle_group_level1", v1), ("muscle_group_level2", v2)]) n =
          df.getCol n := by
  have hne3 : ("muscle_group_level2" : String) ≠ "muscle_group_level1" := by decide
  refine ⟨(mapAccumMuscles config { st with unmapped_exercises := [] }
            (df.getColD "exercise_name")).1.map (fun p => Cell.str p.1),
          (mapAccumMuscles config { st with unmapped_exercises := [] }
            (df.getColD "exercise_name")).1.map (fun p => Cell.str p.2),
          (mapAccumMuscles config { st with unmapped_exercises := [] }
            (df.getColD "exercise_name")).2, ?_, ?_⟩
  · unfold enrich_dataframe
    simp only [hcol, Bool.not_true, Bool.false_eq_true, if_false]
    have hset1 : (df.setCol "muscle_group_level1"
        ((mapAccumMuscles config { st with unmapped_exercises := [] }
          (df.getColD "exercise_name")).1.map (fun p => Cell.str p.1))).cols =
        df.cols ++ [("muscle_group_level1",
          (mapAccumMuscles config { st with unmapped_exercises := [] }
            (df.getColD "exercise_name")).1.map (fun p => Cell.str p.1))] :=
      DF.setCol_new df _ _ h1
    have h2b : (df.setCol "muscle_group_level1"
        ((mapAccumMuscles config { st with unmapped_exercises := [] }
          (df.getColD "exercise_name")).1.map (fun p => Cell.str p.1))).hasCol
          "muscle_group_level2" = false := by
      rw [DF.hasCol_setCol_ne _ _ _ _ hne3]
      exact h2
    have hset2 := DF.setCol_new _ "muscle_group_level2"
      ((mapAccumMuscles config { st with unmapped_exercises := [] }
        (df.getColD "exercise_name")).1.map (fun p => Cell.str p.2)) h2b
    rw [hset1] at hset2
    rw [List.append_assoc] at hset2
    simp only [List.singleton_append] at hset2
    congr 1
    apply Prod.ext
    · exact congrArg DF.mk hset2
    · rfl
  · intro n hn1 hn2
    rw [lookupA_append]
    cases hdf : lookupA df.cols n with
    | some v => simp [DF.getCol, hdf]
    | none =>
      have hn1x : ¬ (("muscle_group_level1" : String) = n) := fun hh => hn1 hh.symm
      have hn2x : ¬ (("muscle_group_level2" : String) = n) := fun hh => hn2 hh.symm
      simp [DF.getCol, hdf, lookupA, hn1x, hn2x]

def c10Config : MappingConfig :=
  { exercises := [{ names := ["bench press"], level1 := "upper", level2 := "chest" }] }

def c10Df : DF :=
  ⟨[("date", [Cell.num 1]),
    ("exercise_name", [Cell.str "Bench Press"]),
    ("reps", [Cell.num 5])]⟩

/-- Witness for C10 at a concrete table and configuration. -/
theorem c10_enrich_frame_witness :
    ∃ v1 v2 st',
      enrich_dataframe c10Config c10Df {} = Except.ok
        (⟨c10Df.cols ++ [("muscle_group_level1", v1), ("muscle_group_level2", v2)]⟩,
         st') ∧
      ∀ n, n ≠ "muscle_group_level1" → n ≠ "muscle_group_level2" →
        lookupA (c10Df.cols ++ [("muscle_group_level1", v1), ("muscle_group_level2", v2)]) n =
          c10Df.getCol n :=
  c10_enrich_frame c10Config c10Df {} (by decide) (by decide) (by decide)

def c8Config : MappingConfig :=
  { fuzzy_rules :=
      [{ keyword := "press", level1 := "upper", level2 := "chest",
         exclude := ["leg"] }] }

/-- Claim C8: a fuzzy rule matches a name exactly when its lowered keyword
is a substring of the normalized name and no lowered exclusion term is;
rules are tried in declared order with the first match winning. In
particular the rule (keyword press, exclude leg) rejects "Leg Press" (which
falls to the default) but accepts "Bench Press". -/
theorem c8_fuzzy_rule_semantics :
    (∀ (rules : List FuzzyRule) (nm : String),
      fuzzyMatchRules rules nm =
        (rules.find? (fun r =>
          pyContains nm (pyLower r.keyword) &&
            !(r.exclude.any (fun t => pyContains nm (pyLower t))))).map
          (fun r => (r.level1, r.level2))) ∧
    fuzzy_match c8Config (normalize_name "Leg Press") = none ∧
    fuzzy_match c8Config (normalize_name "Bench Press") =
      some ("upper", "chest") ∧
    classify c8Config (Cell.str "Leg Press") = ("upper", "unknown") ∧
    classify c8Config (Cell.str "Bench Press") = ("upper", "chest") := by
  refine ⟨?_, by decide, by decide, by decide, by decide⟩
  intro rules nm
  induction rules with
  | nil => rfl
  | cons r rest ih =>
    by_cases hkw : pyContains nm (pyLower r.keyword) = true
    · by_cases hex : (r.exclude.any (fun t => pyContains nm (pyLower t))) = true
      · simp only [fuzzyMatchRules, hkw, if_true, hex]
        rw [ih]
        rw [List.find?_cons_of_neg]
        simp [hkw, hex]
      · rw [Bool.not_eq_true] at hex
        simp only [fuzzyMatchRules, hkw, if_true, hex, Bool.false_eq_true, if_false]
        rw [List.find?_cons_of_pos]
        · rfl
        · simp [hkw, hex]
    · rw [Bool.not_eq_true] at hkw
      simp only [fuzzyMatchRules, hkw, Bool.false_eq_true, if_false]
      rw [ih]
      rw [List.find?_cons_of_neg]
      simp [hkw]

/-- Claim C1: on a non-empty table, if strict_mode is set and the error
list accumulated by the validation pipeline is non-empty, parse fails with
the validation error carrying the joined error messages; otherwise parse
returns the normalized table (regardless of how many errors were
accumulated). -/
theorem c1_strict_mode_gate (P : Pandas) (schema : Schema) (df : DF)
    (st : PState) (hne : df.isEmptyDF = false) :
    (schema.strict_mode = true → (parseCore P schema df).2.errors ≠ [] →
      parse_csv P schema df st =
        (Except.error ("Validation failed: " ++
          String.intercalate "; " (parseCore P schema df).2.errors),
         (parseCore P schema df).2)) ∧
    (schema.strict_mode = false ∨ (parseCore P schema df).2.errors = [] →
      parse_csv P schema df st =
        (Except.ok (parseCore P schema df).1, (parseCore P schema df).2)) := by
  constructor
  · intro hs herr
    unfold parse_csv
    simp only [hne, Bool.false_eq_true, if_false]
    have : ((parseCore P schema df).2.errors.isEmpty) = false := by
      cases hcs : (parseCore P schema df).2.errors with
      | nil => exact absurd hcs herr
      | cons a as => rfl
    simp [hs, this]
  · intro hs
    unfold parse_csv
    simp only [hne, Bool.false_eq_true, if_false]
    cases hs with
    | inl h => simp [h]
    | inr h => simp [h, List.isEmpty_nil]

def c1Pandas : Pandas :=
  { toNumeric := String.toInt?, strptime := fun _ _ => none,
    autoDate := fun _ => none, now := 0 }

def c1Schema : Schema :=
  { required_columns := [("reps", { ctype := some "integer" })],
    strict_mode := true }

def c1Df : DF := ⟨[("other", [Cell.num 1])]⟩

/-- Witness for C1: a strict-mode schema whose required column is missing
makes the parse fail with the joined error message. -/
theorem c1_strict_mode_gate_witness :
    parse_csv c1Pandas c1Schema c1Df {} =
      (Except.error ("Validation failed: " ++
        String.intercalate "; " (parseCore c1Pandas c1Schema c1Df).2.errors),
       (parseCore c1Pandas c1Schema c1Df).2) :=
  (c1_strict_mode_gate c1Pandas c1Schema c1Df {} (by rfl)).1 (by rfl)
    (by
      intro h
      rw [show (parseCore c1Pandas c1Schema c1Df).2.errors =
        ["Missing required columns: reps"] from rfl] at h
      cases h)

/-- Claim C2 (amended): each parse call reinitializes its error, warning
and mapping accumulators (its outcome does not depend on the prior
instance state), and each enrich call reinitializes the unmapped list (its
outcome does not depend on the prior unmapped list); the classification
memo cache, however, persists across enrich calls on the same instance. -/
theorem c2_per_call_initialization :
    (∀ (P : Pandas) (schema : Schema) (df : DF) (st st' : PState),
      parse_csv P schema df st = parse_csv P schema df st') ∧
    (∀ (config : MappingConfig) (df : DF) (u u' : List Cell)
      (cache : List (Cell × (String × String))),
      enrich_dataframe config df ⟨u, cache⟩ =
        enrich_dataframe config df ⟨u', cache⟩) :=
  ⟨fun _ _ _ _ _ => rfl, fun _ _ _ _ _ => rfl⟩

def c2Config : MappingConfig := {}

def c2Df : DF := ⟨[("exercise_name", [Cell.str "foo"])]⟩

def c2Df1 : DF :=
  ⟨[("exercise_name", [Cell.str "foo"]),
    ("muscle_group_level1", [Cell.str "upper"]),
    ("muscle_group_level2", [Cell.str "unknown"])]⟩

def c2St1 : EState :=
  { unmapped_exercises := [Cell.str "foo"],
    exercise_cache := [(Cell.str "foo", ("upper", "unknown"))] }

/-- Counterexample to C2 as stated: "foo" is resolved only by the default
tier, and a first enrichment run records it as unmapped; a second run on
the same instance hits the persisting memo cache and leaves its
freshly-reset unmapped list empty, so the name is not recorded in that
run's unmapped set. -/
theorem c2_counterexample :
    enrich_dataframe c2Config c2Df ⟨[], []⟩ = Except.ok (c2Df1, c2St1) ∧
    enrich_dataframe c2Config c2Df c2St1 =
      Except.ok (c2Df1,
        { unmapped_exercises := [],
          exercise_cache := [(Cell.str "foo", ("upper", "unknown"))] }) ∧
    ¬ (Cell.str "foo" ∈ ([] : List Cell)) :=
  ⟨by rfl, by rfl, by decide⟩

/-- First element of a list satisfying a Boolean check. -/
def findA {α : Type} (f : α → Bool) : List α → Option α
  | [] => none
  | a :: as => if f a then some a else findA f as

theorem findA_append {α : Type} (f : α → Bool) (l₁ l₂ : List α) :
    findA f (l₁ ++ l₂) =
      (match findA f l₁ with
       | some a => some a
       | none => findA f l₂) := by
  induction l₁ with
  | nil => rfl
  | cons a as ih =>
    by_cases ha : f a = true
    · simp [findA, ha]
    · rw [Bool.not_eq_true] at ha
      simp [findA, ha, ih]

theorem mapColumnsLoop_lookup (cs : Bool) (headers : List String) :
    ∀ (decl : List (String × ColumnConfig))
      (acc : List (String × String) × List (String × String)) (h : String),
    lookupA (mapColumnsLoop cs headers decl acc).1 h =
      (match findA (fun p => findMatchFor cs headers p.1 p.2 == some h)
          decl.reverse with
       | some p => some p.1
       | none => lookupA acc.1 h) := by
  intro decl
  induction decl with
  | nil => intro acc h; rfl
  | cons p rest ih =>
    intro acc h
    simp only [List.reverse_cons]
    rw [findA_append]
    cases hrest : findA (fun q => findMatchFor cs headers q.1 q.2 == some h)
        rest.reverse with
    | some r =>
      cases hm : findMatchFor cs headers p.1 p.2 with
      | some col =>
        simp only [mapColumnsLoop, hm]
        rw [ih, hrest]
      | none =>
        simp only [mapColumnsLoop, hm]
        rw [ih, hrest]
    | none =>
      cases hm : findMatchFor cs headers p.1 p.2 with
      | some col =>
        simp only [mapColumnsLoop, hm]
        rw [ih, hrest]
        by_cases hcol : col = h
        · have hq : (findMatchFor cs headers p.1 p.2 == some h) = true := by
            simp [hm, hcol]
          simp only [findA, hq, if_true]
          rw [hcol]
          exact lookupA_setA_self acc.1 h p.1
        · have hq : (findMatchFor cs headers p.1 p.2 == some h) = false := by
            simp [hm, hcol]
          simp only [findA, hq, Bool.false_eq_true, if_false]
          exact lookupA_setA_ne acc.1 col h p.1 (fun hh => hcol hh.symm)
      | none =>
        simp only [mapColumnsLoop, hm]
        rw [ih, hrest]
        have hq : (findMatchFor cs headers p.1 p.2 == some h) = false := by
          simp [hm]
        simp only [findA, hq, Bool.false_eq_true, if_false]

/-- Claim C3 (amended): in a single column-mapping pass each input header
is renamed to at most one canonical column, but when one header is the
first match of several canonical columns, the tie goes to the
last-declared matching canonical column (optional columns after required
ones), because each later dict write overwrites the header's entry. -/
theorem c3_mapping_tie_break (schema : Schema) (df : DF) (h : String) :
    lookupA (mapColumnsAux schema.case_sensitive (df.cols.map (fun c => c.1))
        (schema.required_columns ++ schema.optional_columns)).1 h =
      (match findA
          (fun p => findMatchFor schema.case_sensitive
            (df.cols.map (fun c => c.1)) p.1 p.2 == some h)
          (schema.required_columns ++ schema.optional_columns).reverse with
       | some p => some p.1
       | none => none) := by
  unfold mapColumnsAux
  rw [mapColumnsLoop_lookup]
  rfl

def c3Schema : Schema :=
  { required_columns := [("a", { aliases := some ["x"] })],
    optional_columns := [("b", { aliases := some ["x"] })] }

def c3Df : DF := ⟨[("x", [Cell.num 1])]⟩

/-- Counterexample to C3 as stated: header "x" matches aliases of the
required column "a" and of the optional column "b"; the mapping pass
renames it to the later-declared "b", not to the first-declared "a". -/
theorem c3_counterexample :
    (map_columns c3Schema c3Df).1.cols.map (fun c => c.1) = ["b"] ∧
    (map_columns c3Schema c3Df).1.cols.map (fun c => c.1) ≠ ["a"] :=
  ⟨by rfl, by decide⟩

theorem findA_eq_findq {α : Type} (f : α → Bool) (l : List α) :
    findA f l = l.find? f := by
  induction l with
  | nil => rfl
  | cons a as ih =>
    cases hfa : f a with
    | true => simp [findA, List.find?, hfa]
    | false => simp [findA, List.find?, hfa, ih]

/-- Claim C4 (amended): the canonical column name acts as an alias only
when the column has no configured alias list (it is then the sole default
alias); when an alias list is configured, matching consults only its
entries, so a header equal to the canonical name after case normalization
does not map unless some configured alias also normalizes to it. -/
theorem c4_canonical_name_alias (cs : Bool) (headers : List String)
    (stdName : String) (cfg : ColumnConfig) :
    (cfg.aliases = none →
      findMatchFor cs headers stdName cfg =
        findA (fun col => normCase cs col == normCase cs stdName) headers) ∧
    (∀ l, cfg.aliases = some l →
      (∀ a ∈ l, normCase cs a ≠ normCase cs stdName) →
      ∀ h, normCase cs h = normCase cs stdName →
        findMatchFor cs headers stdName cfg ≠ some h) := by
  constructor
  · intro hn
    unfold findMatchFor
    rw [findA_eq_findq]
    congr 1
    funext col
    simp [aliasesOf, hn]
  · intro l hl hnal h hnorm hsome
    unfold findMatchFor at hsome
    have hp := List.find?_some hsome
    simp only [aliasesOf, hl, Option.getD_some, List.any_eq_true] at hp
    obtain ⟨a, hal, ha⟩ := hp
    rw [beq_iff_eq] at ha
    exact hnal a hal (ha ▸ hnorm)

/-- Witness for C4 at concrete headers: with a configured alias list
lacking the canonical name, the canonical-named header "Date" does not
match; with no alias list, matching scans for the canonical name itself. -/
theorem c4_canonical_name_alias_witness :
    findMatchFor false ["Date"] "date" { aliases := some ["day"] } ≠
      some "Date" ∧
    findMatchFor false ["Date", "day"] "date" {} =
      findA (fun col => normCase false col == normCase false "date")
        ["Date", "day"] :=
  ⟨(c4_canonical_name_alias false ["Date"] "date"
      { aliases := some ["day"] }).2 ["day"] rfl (by decide) "Date" (by rfl),
   (c4_canonical_name_alias false ["Date", "day"] "date" {}).1 rfl⟩

def c4Schema : Schema :=
  { required_columns := [("date", { aliases := some ["day"] })] }

def c4Df : DF := ⟨[("Date", [Cell.str "2025-01-10"])]⟩

/-- Counterexample to C4 as stated: the header "Date" equals the canonical
column name "date" after case normalization, yet with configured aliases
["day"] the mapping pass records no mapping, leaves the header unrenamed,
and the required-column check then reports "date" as missing. -/
theorem c4_counterexample :
    normCase false "Date" = normCase false "date" ∧
    (map_columns c4Schema c4Df).2 = [] ∧
    (map_columns c4Schema c4Df).1.cols.map (fun c => c.1) = ["Date"] ∧
    validate_required_columns c4Schema (map_columns c4Schema c4Df).1 =
      ["Missing required columns: date"] :=
  ⟨by rfl, by rfl, by rfl, by rfl⟩

theorem DF.nRows_setCol (df : DF) (k : String) (v : List Cell)
    (hv : v.length = df.nRows) : (df.setCol k v).nRows = df.nRows := by
  obtain ⟨cols⟩ := df
  cases cols with
  | nil =>
    simp only [DF.nRows] at hv
    simp only [DF.setCol, setA, hasKey, DF.nRows, List.nil_append,
      Bool.false_eq_true, if_false]
    exact hv
  | cons c rest =>
    simp only [DF.nRows] at hv
    by_cases h : hasKey (c :: rest) k = true
    · simp only [DF.setCol, setA, h, if_true, List.map_cons, DF.nRows]
      by_cases hck : c.1 = k
      · simp only [hck, if_true]
        exact hv
      · simp only [hck, if_false]
    · rw [Bool.not_eq_true] at h
      simp only [DF.setCol, setA, h, Bool.false_eq_true, if_false,
        List.cons_append, DF.nRows]

theorem addOptionalAux_getCol_notmem :
    ∀ (l : List (String × ColumnConfig)) (df : DF) (k : String),
    (∀ q ∈ l, q.1 ≠ k) → (addOptionalAux l df).1.getCol k = df.getCol k := by
  intro l
  induction l with
  | nil => intro df k _; rfl
  | cons p rest ih =>
    intro df k hq
    by_cases hp : df.hasCol p.1 = true
    · simp only [addOptionalAux, hp, if_true]
      exact ih df k (fun q hmem => hq q (List.mem_cons_of_mem p hmem))
    · rw [Bool.not_eq_true] at hp
      simp only [addOptionalAux, hp, Bool.false_eq_true, if_false]
      rw [ih _ k (fun q hmem => hq q (List.mem_cons_of_mem p hmem))]
      exact DF.getCol_setCol_ne df p.1 k _ (fun hh =>
        hq p (List.mem_cons_self p rest) hh.symm)

theorem addOptionalAux_nRows :
    ∀ (l : List (String × ColumnConfig)) (df : DF),
    (addOptionalAux l df).1.nRows = df.nRows := by
  intro l
  induction l with
  | nil => intro df; rfl
  | cons p rest ih =>
    intro df
    by_cases hp : df.hasCol p.1 = true
    · simp only [addOptionalAux, hp, if_true]
      exact ih df
    · rw [Bool.not_eq_true] at hp
      simp only [addOptionalAux, hp, Bool.false_eq_true, if_false]
      rw [ih]
      exact DF.nRows_setCol df p.1 _ (List.length_replicate _ _)

theorem addOptionalAux_getCol :
    ∀ (l : List (String × ColumnConfig)) (df : DF) (name : String)
      (cfg : ColumnConfig),
    (l.map (fun p => p.1)).Nodup → (name, cfg) ∈ l →
    df.hasCol name = false →
    (addOptionalAux l df).1.getCol name =
      some (List.replicate df.nRows cfg.dflt) := by
  intro l
  induction l with
  | nil => intro df name cfg _ hmem; cases hmem
  | cons p rest ih =>
    intro df name cfg hnd hmem habs
    rw [List.map_cons, List.nodup_cons] at hnd
    cases hmem with
    | head =>
      simp only [addOptionalAux, habs, Bool.false_eq_true, if_false]
      have hrest : ∀ q ∈ rest, q.1 ≠ name := by
        intro q hq hqe
        exact hnd.1 (hqe ▸ List.mem_map_of_mem (fun p => p.1) hq)
      rw [addOptionalAux_getCol_notmem rest _ name hrest]
      exact DF.getCol_setCol_self df name _
    | tail _ hmem =>
      have hpn : p.1 ≠ name := by
        intro hpe
        exact hnd.1 (by
          rw [hpe]
          exact List.mem_map_of_mem (fun q => q.1) hmem)
      by_cases hp : df.hasCol p.1 = true
      · simp only [addOptionalAux, hp, if_true]
        exact ih df name cfg hnd.2 hmem habs
      · rw [Bool.not_eq_true] at hp
        simp only [addOptionalAux, hp, Bool.false_eq_true, if_false]
        have habs2 : (df.setCol p.1
            (List.replicate df.nRows p.2.dflt)).hasCol name = false := by
          rw [DF.hasCol_setCol_ne df p.1 name _ (fun hh => hpn hh.symm)]
          exact habs
        rw [ih _ name cfg hnd.2 hmem habs2]
        rw [DF.nRows_setCol df p.1 _ (List.length_replicate _ _)]

theorem addOptionalAux_warnings :
    ∀ (l : List (String × ColumnConfig)) (df : DF),
    (l.map (fun p => p.1)).Nodup →
    (addOptionalAux l df).2 =
      (l.filter (fun p => !df.hasCol p.1 && !(p.2.dflt == Cell.null))).map
        (fun p => addedColumnWarning p.1 p.2.dflt) := by
  intro l
  induction l with
  | nil => intro df _; rfl
  | cons p rest ih =>
    intro df hnd
    rw [List.map_cons, List.nodup_cons] at hnd
    by_cases hp : df.hasCol p.1 = true
    · simp only [addOptionalAux, hp, if_true]
      rw [ih df hnd.2, List.filter_cons]
      simp [hp]
    · rw [Bool.not_eq_true] at hp
      simp only [addOptionalAux, hp, Bool.false_eq_true, if_false]
      have hcong : rest.filter (fun q =>
          !(df.setCol p.1 (List.replicate df.nRows p.2.dflt)).hasCol q.1 &&
            !(q.2.dflt == Cell.null)) =
          rest.filter (fun q => !df.hasCol q.1 && !(q.2.dflt == Cell.null)) := by
        apply List.filter_congr
        intro q hq
        rw [DF.hasCol_setCol_ne df p.1 q.1 _ (fun hh =>
          hnd.1 (by rw [← hh]; exact List.mem_map_of_mem (fun r => r.1) hq))]
      rw [ih _ hnd.2, hcong, List.filter_cons]
      by_cases hd : p.2.dflt = Cell.null
      · simp [hp, hd]
      · simp [hp, hd]

/-- Claim C5: every optional column absent from the input appears in the
output of the optional-column defaulting stage as a full column of its
configured default value, and the accumulated warnings are exactly one
warning per absent optional column whose default is non-null (a null or
absent default warns nothing). -/
theorem c5_optional_defaults (schema : Schema) (df : DF)
    (hnd : (schema.optional_columns.map (fun p => p.1)).Nodup) :
    (add_optional_columns schema df).2 =
      (schema.optional_columns.filter
        (fun p => !df.hasCol p.1 && !(p.2.dflt == Cell.null))).map
        (fun p => addedColumnWarning p.1 p.2.dflt) ∧
    ∀ name cfg, (name, cfg) ∈ schema.optional_columns →
      df.hasCol name = false →
      (add_optional_columns schema df).1.getCol name =
        some (List.replicate df.nRows cfg.dflt) :=
  ⟨addOptionalAux_warnings schema.optional_columns df hnd,
   fun _ cfg hm ha => addOptionalAux_getCol _ df _ cfg hnd hm ha⟩

def c5Schema : Schema :=
  { required_columns := [],
    optional_columns := [("notes", { dflt := Cell.str "none" }), ("rpe", {})] }

def c5Df : DF := ⟨[("reps", [Cell.num 5, Cell.num 3])]⟩

/-- Witness for C5: the absent optional column "notes" (non-null default)
is added with one warning, the absent optional column "rpe" (null default)
is added silently. -/
theorem c5_optional_defaults_witness :
    (add_optional_columns c5Schema c5Df).2 =
      ["Added column \x27notes\x27 with default value: none"] ∧
    (add_optional_columns c5Schema c5Df).1.getCol "notes" =
      some (List.replicate c5Df.nRows (Cell.str "none")) ∧
    (add_optional_columns c5Schema c5Df).1.getCol "rpe" =
      some (List.replicate c5Df.nRows Cell.null) :=
  ⟨by rw [(c5_optional_defaults c5Schema c5Df (by decide)).1]; rfl,
   (c5_optional_defaults c5Schema c5Df (by decide)).2 "notes"
     { dflt := Cell.str "none" } (by decide) (by rfl),
   (c5_optional_defaults c5Schema c5Df (by decide)).2 "rpe" {}
     (by decide) (by rfl)⟩

theorem ite_append_right {P : Prop} [Decidable P] (A B : List String) :
    (if P then A ++ B else A) = A ++ (if P then B else []) := by
  split <;> simp

/-- Claim C6: for each column, the constraint pass accumulates at most one
error per declared bound — one min-bound error naming the count of rows
below the minimum when that count is positive, one max-bound error naming
the count of rows above the maximum when that count is positive, plus the
required-null error — and never any per-row error. -/
theorem c6_one_error_per_bound (isRequired : Bool) (name : String)
    (cfg : ColumnConfig) (cells : List Cell) :
    validateConstraintsCol isRequired name cfg cells =
      (match cfg.vmin with
       | some m =>
         if 0 < cells.countP (fun c => cellLt c m) then
           [belowMinMsg name m (cells.countP (fun c => cellLt c m))]
         else []
       | none => []) ++
      (match cfg.vmax with
       | some m =>
         if 0 < cells.countP (fun c => cellGt c m) then
           [aboveMaxMsg name m (cells.countP (fun c => cellGt c m))]
         else []
       | none => []) ++
      (if isRequired ∧ 0 < cells.countP (fun c => c.isNull) then
         [nullRequiredMsg name (cells.countP (fun c => c.isNull))]
       else []) := by
  unfold validateConstraintsCol
  cases hmin : cfg.vmin <;> cases hmax : cfg.vmax <;> cases hreq : isRequired <;>
    (simp only [List.countP_eq_length_filter, Nat.pos_iff_ne_zero,
        ite_append_right, List.append_assoc] <;>
      (try (by_cases hn : ∃ x ∈ cells, x.isNull = true <;>
        simp [hn, List.countP_eq_length_filter, Nat.pos_iff_ne_zero,
          ite_append_right, List.append_assoc])))

def charDigit (c : Char) : Option Nat :=
  if c.isDigit then some (c.toNat - 48) else none

def digitsVal : List Char → Nat → Option Nat
  | [], acc => some acc
  | c :: cs, acc =>
    match charDigit c with
    | some d => digitsVal cs (acc * 10 + d)
    | none => none

/-- A concrete decimal-integer parser standing in for pandas numeric
parsing in concrete runs. -/
def pyToInt (s : String) : Option Int :=
  match s.data with
  | [] => none
  | '-' :: rest =>
    if rest.isEmpty then none
    else (digitsVal rest 0).map (fun n => -(n : Int))
  | l => (digitsVal l 0).map (fun n => (n : Int))

/-- Claim C7 (amended): integer/float coercion reports one error naming
the count of nulls remaining after coercion; that count equals the number
of input cells that failed conversion plus the number of input cells that
were already null, so it equals the failed-conversion count only when the
input column has no nulls. -/
theorem c7_numeric_null_counts (P : Pandas) (name : String)
    (cfg : ColumnConfig) (cells : List Cell) :
    ((cells.map (coerceNumeric P)).countP (fun c => c.isNull) =
      cells.countP (fun c => c.isNull) +
        cells.countP (fun c => !c.isNull && (coerceNumeric P c).isNull)) ∧
    (cfg.ctype = some "integer" →
      validateTypesCol P name cfg cells =
        (cells.map (coerceNumeric P),
         if 0 < (cells.map (coerceNumeric P)).countP (fun c => c.isNull) then
           [unconvertibleMsg name
             ((cells.map (coerceNumeric P)).countP (fun c => c.isNull))
             "integer"]
         else [])) ∧
    (cfg.ctype = some "float" →
      validateTypesCol P name cfg cells =
        (cells.map (coerceNumeric P),
         if 0 < (cells.map (coerceNumeric P)).countP (fun c => c.isNull) then
           [unconvertibleMsg name
             ((cells.map (coerceNumeric P)).countP (fun c => c.isNull))
             "float"]
         else [])) := by
  refine ⟨?_, ?_, ?_⟩
  · induction cells with
    | nil => rfl
    | cons c cs ih =>
      simp only [List.map_cons, List.countP_cons]
      rw [ih]
      cases c with
      | null => simp [coerceNumeric, Cell.isNull]; try omega
      | str s =>
        cases hp : P.toNumeric s with
        | some n => simp [coerceNumeric, hp, Cell.isNull]; try omega
        | none => simp [coerceNumeric, hp, Cell.isNull]; try omega
      | num n => simp [coerceNumeric, Cell.isNull]; try omega
  · intro h
    simp only [validateTypesCol, h]
    simp [List.countP_eq_length_filter, Nat.pos_iff_ne_zero]
  · intro h
    simp only [validateTypesCol, h]
    simp [List.countP_eq_length_filter, Nat.pos_iff_ne_zero]

def c7Pandas : Pandas :=
  { toNumeric := pyToInt, strptime := fun _ _ => none,
    autoDate := fun _ => none, now := 0 }

/-- Witness for C7 at a concrete column: "80" converts, "abc" fails and a
null passes through, so the single error reports two nulls. -/
theorem c7_numeric_null_counts_witness :
    validateTypesCol c7Pandas "weight" { ctype := some "float" }
        [Cell.str "80", Cell.str "abc", Cell.null] =
      ([Cell.num 80, Cell.null, Cell.null],
       [unconvertibleMsg "weight" 2 "float"]) := by
  rw [(c7_numeric_null_counts c7Pandas "weight" { ctype := some "float" }
    [Cell.str "80", Cell.str "abc", Cell.null]).2.2 rfl]
  rfl

/-- Counterexample to C7 as stated: an integer column whose single input
cell is already null reports one unconvertible value, although no input
cell failed conversion. -/
theorem c7_counterexample :
    validateTypesCol c7Pandas "reps" { ctype := some "integer" }
        [Cell.null] =
      ([Cell.null], [unconvertibleMsg "reps" 1 "integer"]) ∧
    ([Cell.null] : List Cell).countP
      (fun c => !c.isNull && (coerceNumeric c7Pandas c).isNull) = 0 ∧
    (1 : Nat) ≠ 0 :=
  ⟨by rfl, by rfl, by decide⟩
